import Mathlib

/-!
Shallow embedding of `ginga/canvas/types/image.py`: the image canvas
objects `ImageP` (raw RGB variant) and `NormImageP` (cut/color-mapped
variant), their per-viewer render cache, and the whence-staged draw
pipeline (`_common_draw`, `draw_image`, `set_image`, `set_edit_point`,
`rotate`).

Conventions of the embedding:
* numpy float arithmetic is modelled exactly over `ℚ`; pixel sample
  values are `ℕ` (the arrays hold unsigned integer samples);
* a pixel array is a list of rows, a row is a list of pixels, a pixel
  is a list of channel samples (`numpy` axis order `[y, x, channel]`);
* external collaborators that the module only calls (the viewer, the
  `Image` object, `trcalc.calc_image_merge_clip`, `get_scaled_cutout2`,
  the RGB map, the autocuts object) are modelled as structures whose
  function-valued fields are parameters of the theorems: the module
  under study treats them as deterministic black boxes;
* Python `int()` truncates toward zero and `np.round` rounds half to
  even; both are modelled exactly below;
* a draw call is a pure state transformer on the cache entry, returning
  additionally the argument pair `(source array, position)` that would
  be handed to `trcalc.overlay_image` (`none` when the compositor is
  not invoked).
-/

/-- One channel sample of a pixel (unsigned integer value). -/
abbrev Sample := Nat

/-- A pixel: list of channel samples. -/
abbrev Pixel := List Sample

/-- A pixel array: rows of pixels (numpy `[y, x, channel]`). -/
abbrev PixArr := List (List Pixel)

/-- A single-channel 2-d array, as produced by `img_arr[..., a_idx]`. -/
abbrev AlphaArr := List (List Sample)

/-- Python `int()` on a rational: truncation toward zero. -/
def truncQ (q : ℚ) : ℤ :=
  if q < 0 then ⌈q⌉ else ⌊q⌋

/-- `np.round`: round half to even, then `int()` (already integral). -/
def roundHalfEven (q : ℚ) : ℤ :=
  if Int.fract q < 1/2 then ⌊q⌋
  else if 1/2 < Int.fract q then ⌊q⌋ + 1
  else if ⌊q⌋ % 2 = 0 then ⌊q⌋ else ⌊q⌋ + 1

/-- `np.min` over a nonempty list (0 for the empty list, unreached). -/
def minList : List ℚ → ℚ
  | [] => 0
  | [x] => x
  | x :: y :: xs => min x (minList (y :: xs))

/-- `np.max` over a nonempty list (0 for the empty list, unreached). -/
def maxList : List ℚ → ℚ
  | [] => 0
  | [x] => x
  | x :: y :: xs => max x (maxList (y :: xs))

/-- The external `Image` collaborator (`self.image`): dimensions, channel
order string, dtype maximum (`trcalc.get_minmax_dtype(arr.dtype)[1]`),
and the scaled-cutout operation `get_scaled_cutout2(...).data`. -/
structure RgbImage where
  width : ℤ
  height : ℤ
  order : List Char
  dtypeMax : ℕ
  scaledCutout2 : (ℤ × ℤ) → (ℤ × ℤ) → (ℚ × ℚ) → String → PixArr

/-- The external RGB mapper collaborator: `maxc`, `get_hash_size()`, and
`get_rgbarray(...).get_array(dst_order)` collapsed into one function. -/
structure RgbMapper where
  maxc : ℕ
  hashSize : ℕ
  getRgbArray : PixArr → List Char → List Char → PixArr

/-- The external autocuts collaborator: `cut_levels(data, lo, hi, vmin, vmax)`. -/
structure AutoCuts where
  cutLevels : PixArr → ℚ → ℚ → ℕ → ℕ → PixArr

/-- The external `trcalc` module: the set of known interpolation methods
and `calc_image_merge_clip((xmin,ymin),(xmax,ymax),dst,(a1,b1),(a2,b2))`. -/
structure Trcalc where
  interpolationMethods : List String
  calcImageMergeClip : (ℤ × ℤ) → (ℤ × ℤ) → (ℚ × ℚ) → (ℤ × ℤ) → (ℤ × ℤ) →
    ((ℚ × ℚ) × (ℤ × ℤ) × (ℤ × ℤ))

/-- The external viewer collaborator: everything `_common_draw` and
`draw_image` query from it. -/
structure Viewer where
  drawRect : List (ℚ × ℚ)
  scaleXY : ℚ × ℚ
  pan : ℚ × ℚ
  dataOff : ℚ
  rgbOrder : List Char
  settingsInterp : Option String
  cuts : ℚ × ℚ
  rgbmap : RgbMapper
  autocuts : AutoCuts

/-- The drawable parameters of an `ImageP` object used by the draw
pipeline; `toData` is `self.crdmap.to_data`. -/
structure ImageObj where
  x : ℚ
  y : ℚ
  scale_x : ℚ
  scale_y : ℚ
  interpolation : Option String
  flipy : Bool
  optimize : Bool
  alphaBlend : ℚ
  image : Option RgbImage
  toData : (ℚ × ℚ) → (ℚ × ℚ)

/-- The drawable parameters of a `NormImageP` object: those of `ImageP`
plus the nullable `rgbmap`, `cuts` and `autocuts` overrides. -/
structure NormImageObj extends ImageObj where
  rgbmapOv : Option RgbMapper
  cutsOv : Option (ℚ × ℚ)
  autocutsOv : Option AutoCuts

/-- A per-viewer cache entry (`Bunch`): the union of the fields stored by
`ImageP._reset_cache` (cutout, drawn, cvs_pos) and `NormImageP._reset_cache`
(additionally alpha, prergb, rgbarr). -/
@[ext] structure Cache where
  cutout : Option PixArr := none
  alpha : Option AlphaArr := none
  prergb : Option PixArr := none
  rgbarr : Option PixArr := none
  drawn : Bool := false
  cvs_pos : ℤ × ℤ := (0, 0)
deriving DecidableEq

/-- `ImageP._reset_cache`: `cache.setvals(cutout=None, drawn=False,
cvs_pos=(0, 0))` (leaves the normalized-variant fields alone). -/
def resetCacheRaw (c : Cache) : Cache :=
  { c with cutout := none, drawn := false, cvs_pos := (0, 0) }

/-- `NormImageP._reset_cache`: resets all six stored fields. -/
def resetCacheNorm (c : Cache) : Cache :=
  { c with cutout := none, alpha := none, prergb := none, rgbarr := none,
           drawn := false, cvs_pos := (0, 0) }

/-- Lines 172-177 of `_common_draw`: the integer visible bounding box of
the draw rectangle: `int(np.min(..))`, `int(np.ceil(np.max(..)))`. -/
def visibleBox (pts : List (ℚ × ℚ)) : ℤ × ℤ × ℤ × ℤ :=
  let xs := pts.map Prod.fst
  let ys := pts.map Prod.snd
  (truncQ (minList xs), truncQ (minList ys), ⌈maxList xs⌉, ⌈maxList ys⌉)

/-- Lines 203-212 of `_common_draw`: interpolation method selection:
the object's setting if not `None`, else the viewer's setting with
default `'basic'`; replaced by `'basic'` when not a known method. -/
def chooseInterp (tr : Trcalc) (obj : ImageObj) (v : Viewer) : String :=
  let interp :=
    match obj.interpolation with
    | some s => s
    | none => v.settingsInterp.getD "basic"
  if interp ∈ tr.interpolationMethods then interp else "basic"

/-- The clip computation of `_common_draw` (lines 172-190): visible box,
destination in data coordinates, and `trcalc.calc_image_merge_clip` on
the full-image rectangle `(0,0)-(width-1, height-1)`. -/
def clipOf (tr : Trcalc) (v : Viewer) (obj : ImageObj) (img : RgbImage) :
    (ℚ × ℚ) × (ℤ × ℤ) × (ℤ × ℤ) :=
  let box := visibleBox v.drawRect
  let dst := obj.toData (obj.x, obj.y)
  tr.calcImageMergeClip (box.1, box.2.1) (box.2.2.1, box.2.2.2) dst
    (0, 0) (img.width - 1, img.height - 1)

/-- The recompute body of `_common_draw` (lines 192-236) as a function of
the environment only: `none` when the clipped region has non-positive
extent in either axis, else the scaled (and possibly y-flipped) cutout
together with the canvas position `(cvs_x, cvs_y)`. -/
def computeCutout (tr : Trcalc) (v : Viewer) (obj : ImageObj) (img : RgbImage)
    (sh : ℕ × ℕ × ℕ) : Option (PixArr × (ℤ × ℤ)) :=
  let r := clipOf tr v obj img
  let dst := r.1
  let a := r.2.1
  let b := r.2.2
  if b.1 - a.1 ≤ 0 ∨ b.2 - a.2 ≤ 0 then none
  else
    let data := img.scaledCutout2 a b
      (v.scaleXY.1 * obj.scale_x, v.scaleXY.2 * obj.scale_y)
      (chooseInterp tr obj v)
    let data := if obj.flipy then data.reverse else data
    let px := v.pan.1 + v.dataOff
    let py := v.pan.2 + v.dataOff
    let offx := (dst.1 - px) * v.scaleXY.1
    let offy := (dst.2 - py) * v.scaleXY.2
    some (data, (roundHalfEven ((sh.2.1 : ℚ) / 2 + offx),
                 roundHalfEven ((sh.1 : ℚ) / 2 + offy)))

/-- The cache update performed by the recompute branch of `_common_draw`:
the off-screen path stores `cutout = None` and returns (leaving `cvs_pos`
untouched); the on-screen path stores the cutout and `cvs_pos`. -/
def commonDrawCompute (tr : Trcalc) (v : Viewer) (obj : ImageObj)
    (img : RgbImage) (sh : ℕ × ℕ × ℕ) (c : Cache) : Cache :=
  match computeCutout tr v obj img sh with
  | none => { c with cutout := none }
  | some dp => { c with cutout := some dp.1, cvs_pos := dp.2 }

/-- `ImageP._common_draw`: no-op without an image; recomputes the cutout
when `whence <= 0.0`, or no cutout is cached, or optimize is off. -/
def commonDraw (tr : Trcalc) (v : Viewer) (obj : ImageObj) (sh : ℕ × ℕ × ℕ)
    (whence : ℚ) (c : Cache) : Cache :=
  match obj.image with
  | none => c
  | some img =>
    if whence ≤ 0 ∨ c.cutout = none ∨ obj.optimize = false then
      commonDrawCompute tr v obj img sh c
    else c

/-- `ImageP.draw_image`: common draw phase, then hand
`(cache.cutout, cache.cvs_pos)` to `trcalc.overlay_image` (the returned
option is the argument pair of the compositor call, `none` when the
compositor is not invoked). -/
def drawImageRaw (tr : Trcalc) (v : Viewer) (sh : ℕ × ℕ × ℕ) (obj : ImageObj)
    (whence : ℚ) (c0 : Cache) : Cache × Option (PixArr × (ℤ × ℤ)) :=
  match obj.image with
  | none => (c0, none)
  | some _ =>
    let c1 := commonDraw tr v obj sh whence c0
    if c1.cutout = none then (c1, none)
    else (c1, some (c1.cutout.getD [], c1.cvs_pos))

/-- One alpha sample of `(img_arr[..., a_idx] / mx * rgbmap.maxc)
.astype(rgbmap.dtype)`: exact rational arithmetic followed by the
truncating unsigned-integer cast, i.e. `⌊v * maxc / mx⌋`. -/
def splitAlphaVal (mx maxc v : ℕ) : ℕ :=
  v * maxc / mx

/-- The separated alpha plane `cache.alpha` built from a cutout. -/
def splitAlphaArr (mx maxc aIdx : ℕ) (arr : PixArr) : AlphaArr :=
  arr.map (fun row => row.map (fun p => splitAlphaVal mx maxc (p.getD aIdx 0)))

/-- `img_arr[..., 0:a_idx]`: strip the channels from `a_idx` on. -/
def stripAlpha (aIdx : ℕ) (arr : PixArr) : PixArr :=
  arr.map (fun row => row.map (fun p => p.take aIdx))

/-- `cache.rgbarr[..., a_idx] = cache.alpha`: write a stored alpha plane
into channel `a_idx` of a pixel array. -/
def writeAlpha (aIdx : ℕ) (al : AlphaArr) (arr : PixArr) : PixArr :=
  List.zipWith (fun row arow => List.zipWith (fun p a => p.set aIdx a) row arow)
    arr al

/-- Lines 444-458 of `NormImageP.draw_image`: the alpha-separation step.
If the image order has no `'A'`, `cache.alpha` is cleared; otherwise the
alpha plane is normalized to the mapper scale and stored, and the cutout
is stripped to the channels before `a_idx`. -/
def alphaSplitStage (io : List Char) (mx maxc : ℕ) (c : Cache) : Cache :=
  match c.cutout with
  | none => c
  | some cut =>
    if 'A' ∈ io then
      { c with alpha := some (splitAlphaArr mx maxc (io.indexOf 'A') cut),
               cutout := some (stripAlpha (io.indexOf 'A') cut) }
    else { c with alpha := none }

/-- `NormImageP.apply_visuals`: cut levels from the object override or the
viewer, applied through the object-override or viewer autocuts object. -/
def applyVisuals (v : Viewer) (obj : NormImageObj) (data : PixArr)
    (vmin vmax : ℕ) : PixArr :=
  let ac := obj.autocutsOv.getD v.autocuts
  let lohi := obj.cutsOv.getD v.cuts
  ac.cutLevels data lohi.1 lohi.2 vmin vmax

/-- Lines 460-471 of `NormImageP.draw_image`: recompute the index array
`cache.prergb` from the current cutout (the `astype(np.uint)` cast is the
identity in this `ℕ`-valued model). -/
def prergbStage (v : Viewer) (obj : NormImageObj) (rm : RgbMapper)
    (c : Cache) : Cache :=
  let vmax := rm.hashSize - 1
  { c with prergb := some (applyVisuals v obj (c.cutout.getD []) 0 vmax) }

/-- The value stored into `cache.rgbarr` by lines 476-484 of
`NormImageP.draw_image`: the color-mapped index array, with the stored
alpha plane written into the `'A'` channel of the destination order
when both exist. -/
def rgbarrVal (dstOrder io : List Char) (rm : RgbMapper) (pre : PixArr)
    (alp : Option AlphaArr) : PixArr :=
  let rgbarr := rm.getRgbArray pre dstOrder io
  match alp with
  | some al => if 'A' ∈ dstOrder then writeAlpha (dstOrder.indexOf 'A') al rgbarr
               else rgbarr
  | none => rgbarr

/-- Lines 476-484 of `NormImageP.draw_image`: color-map the index array
into `cache.rgbarr`, recombining the stored alpha plane. -/
def rgbarrStage (dstOrder io : List Char) (rm : RgbMapper) (c : Cache) : Cache :=
  { c with rgbarr := some (rgbarrVal dstOrder io rm (c.prergb.getD []) c.alpha) }

/-- The three guarded cache stages of `NormImageP.draw_image` (lines
444-484), run after `_common_draw` has produced a cutout. -/
def normStages (v : Viewer) (obj : NormImageObj) (img : RgbImage)
    (whence : ℚ) (c : Cache) : Cache :=
  let rm := obj.rgbmapOv.getD v.rgbmap
  let c2 := if whence ≤ 0 ∨ obj.optimize = false then
              alphaSplitStage img.order img.dtypeMax rm.maxc c
            else c
  let c3 := if whence ≤ 1 ∨ c2.prergb = none ∨ obj.optimize = false then
              prergbStage v obj rm c2
            else c2
  if whence ≤ 2 ∨ c3.rgbarr = none ∨ obj.optimize = false then
    rgbarrStage v.rgbOrder img.order rm c3
  else c3

/-- `NormImageP.draw_image`: common draw phase, the three staged cache
updates, then hand `(cache.rgbarr, cache.cvs_pos)` to
`trcalc.overlay_image` (returned as the option, `none` when the
compositor is not invoked). -/
def drawImageNorm (tr : Trcalc) (v : Viewer) (sh : ℕ × ℕ × ℕ)
    (obj : NormImageObj) (whence : ℚ) (c0 : Cache) :
    Cache × Option (PixArr × (ℤ × ℤ)) :=
  match obj.image with
  | none => (c0, none)
  | some img =>
    let c1 := commonDraw tr v obj.toImageObj sh whence c0
    if c1.cutout = none then (c1, none)
    else
      let c4 := normStages v obj img whence c1
      (c4, some (c4.rgbarr.getD [], c4.cvs_pos))

/-- `NormImageP` object state relevant to `set_image`: the image
reference and the per-viewer cache dictionary (viewer keys as ids). -/
structure NormObjState where
  image : Option RgbImage
  caches : List (ℕ × Cache)

/-- `ImageP.reset_optimize` with the normalized variant's
`_reset_cache`: reset every entry of the cache dictionary. -/
def resetOptimizeNorm (s : NormObjState) : NormObjState :=
  { s with caches := s.caches.map (fun p => (p.1, resetCacheNorm p.2)) }

/-- `NormImageP.set_image`: replace the image, reset all caches, then
fire `make_callback('image-set', image)`; the returned list is the
exact sequence of callback events the call makes. -/
def setImageNorm (s : NormObjState) (img : Option RgbImage) :
    NormObjState × List (String × Option RgbImage) :=
  let s1 := resetOptimizeNorm { s with image := img }
  (s1, [("image-set", img)])

/-- `ImageP` mutable state relevant to editing: position, scales, and
the per-viewer cache dictionary. -/
structure ImgObjState where
  x : ℚ
  y : ℚ
  scale_x : ℚ
  scale_y : ℚ
  caches : List (ℕ × Cache)
deriving DecidableEq

/-- `ImageP.reset_optimize` with the raw variant's `_reset_cache`. -/
def resetOptimizeRaw (s : ImgObjState) : ImgObjState :=
  { s with caches := s.caches.map (fun p => (p.1, resetCacheRaw p.2)) }

/-- `ImageP.set_edit_point(i, pt, detail)`. `movedPos` is the position
produced by `self.move_to_pt(pt)` and `dual` the pair returned by
`self.calc_dual_scale_from_pt(pt, detail)` (both defined in the mixin
module outside this file, treated as black-box values); `ds` is
`(detail.scale_x, detail.scale_y)`. Returns the new state and the
raised error message, if any; the `ValueError` path raises before any
mutation, so it returns the input state unchanged. -/
def setEditPoint (i : ℤ) (movedPos dual ds : ℚ × ℚ)
    (s : ImgObjState) : ImgObjState × Option String :=
  if i = 0 then
    (resetOptimizeRaw { s with x := movedPos.1, y := movedPos.2 }, none)
  else if i = 1 then
    (resetOptimizeRaw { s with scale_x := ds.1 * dual.1 }, none)
  else if i = 2 then
    (resetOptimizeRaw { s with scale_y := ds.2 * dual.2 }, none)
  else if i = 3 then
    (resetOptimizeRaw { s with scale_x := ds.1 * dual.1,
                               scale_y := ds.2 * dual.2 }, none)
  else
    (s, some "No point corresponding to index")

/-- `ImageP.rotate(theta, xoff, yoff)`: unconditionally
`raise ValueError("Images cannot be rotated")`. -/
def rotateImage (_theta _xoff _yoff : ℚ) : Except String Unit :=
  Except.error "Images cannot be rotated"

/-- `NormImageP.rotate`, inherited unchanged from `ImageP`. -/
def rotateNormImage (theta xoff yoff : ℚ) : Except String Unit :=
  rotateImage theta xoff yoff

/-- The interpolation-selection chain as claim C6 words it (for
comparison with `chooseInterp`, which follows the source): the object's
explicit setting when it is a valid method, else the viewer's default
setting, else `'basic'` when the requested method is unrecognized. -/
def chooseInterpClaim (tr : Trcalc) (obj : ImageObj) (v : Viewer) : String :=
  let vdefault := v.settingsInterp.getD "basic"
  let vchoice := if vdefault ∈ tr.interpolationMethods then vdefault else "basic"
  match obj.interpolation with
  | some s => if s ∈ tr.interpolationMethods then s else vchoice
  | none => vchoice

/-- Sample RGB mapper for the concrete witnesses. -/
def rgbmap0 : RgbMapper :=
  { maxc := 255, hashSize := 256, getRgbArray := fun p _ _ => p }

/-- Sample autocuts collaborator for the concrete witnesses. -/
def autocuts0 : AutoCuts :=
  { cutLevels := fun d _ _ _ _ => d }

/-- Sample viewer for the concrete witnesses. -/
def viewer0 : Viewer :=
  { drawRect := [(0, 0), (10, 0), (10, 10), (0, 10)]
    scaleXY := (1, 1)
    pan := (0, 0)
    dataOff := 0
    rgbOrder := ['R', 'G', 'B', 'A']
    settingsInterp := some "basic"
    cuts := (0, 255)
    rgbmap := rgbmap0
    autocuts := autocuts0 }

/-- Sample viewer whose default interpolation is `"bicubic"`. -/
def viewerBicubic : Viewer :=
  { viewer0 with settingsInterp := some "bicubic" }

/-- Sample 4x4 RGBA image for the concrete witnesses. -/
def img0 : RgbImage :=
  { width := 4, height := 4, order := ['R', 'G', 'B', 'A'], dtypeMax := 255,
    scaledCutout2 := fun _ _ _ _ => [[[10, 20, 30, 40]]] }

/-- Sample 1x1 image whose full-image clip rectangle is degenerate
(`a2 - a1 = 0`), an off-screen configuration under `tr0`. -/
def imgOff : RgbImage :=
  { width := 1, height := 1, order := ['R', 'G', 'B'], dtypeMax := 255,
    scaledCutout2 := fun _ _ _ _ => [[[10, 20, 30]]] }

/-- Sample trcalc collaborator: two known methods, identity clip. -/
def tr0 : Trcalc :=
  { interpolationMethods := ["basic", "bicubic"],
    calcImageMergeClip := fun _ _ d a b => (d, a, b) }

/-- Sample raw image object for the concrete witnesses. -/
def obj0 : ImageObj :=
  { x := 0, y := 0, scale_x := 1, scale_y := 1, interpolation := none,
    flipy := false, optimize := true, alphaBlend := 1, image := some img0,
    toData := id }

/-- Sample normalized image object for the concrete witnesses. -/
def nobj0 : NormImageObj :=
  { toImageObj := obj0, rgbmapOv := none, cutsOv := none, autocutsOv := none }

/-- Sample raw object placed fully off screen. -/
def objOff : ImageObj := { obj0 with image := some imgOff }

/-- Sample normalized object placed fully off screen. -/
def nobjOff : NormImageObj := { nobj0 with toImageObj := objOff }

/-- Sample object with an unrecognized explicit interpolation name. -/
def objBadInterp : ImageObj := { obj0 with interpolation := some "lanczos9" }

/-- A fully populated cache entry for the concrete witnesses. -/
def cacheFull : Cache :=
  { cutout := some [[[1, 2, 3, 4]]], alpha := some [[9]],
    prergb := some [[[5]]], rgbarr := some [[[6, 7, 8, 9]]],
    drawn := true, cvs_pos := (3, 4) }

/-- An empty cache entry for the concrete witnesses. -/
def cache0 : Cache := {}

/-- Sample editable-object state for the concrete witnesses. -/
def state0 : ImgObjState :=
  { x := 1, y := 2, scale_x := 3, scale_y := 4, caches := [(0, cacheFull)] }

/-- Sample normalized-object state for the concrete witnesses. -/
def nstate0 : NormObjState :=
  { image := some img0, caches := [(0, cacheFull), (1, cacheFull)] }

/-- Claim C9: invoking `rotate` on an image canvas object (raw or
normalized — the normalized variant inherits the method unchanged)
raises a `ValueError` for every angle and offset pair; no rotation is
ever applied or approximated (the call never returns successfully). -/
theorem rotate_always_fails (theta xoff yoff : ℚ) :
    rotateImage theta xoff yoff = Except.error "Images cannot be rotated" ∧
    rotateNormImage theta xoff yoff = Except.error "Images cannot be rotated" ∧
    ∀ u : Unit, rotateImage theta xoff yoff ≠ Except.ok u := by
  refine ⟨rfl, rfl, fun u h => ?_⟩
  simp [rotateImage] at h

/-- Claim C10: calling `set_edit_point` with an index outside
{0, 1, 2, 3} raises before any state change: the object state
(position, scales, and every per-viewer cache entry) is returned
exactly as it was, together with the error; in particular the optimize
caches are not reset on the error path. -/
theorem set_edit_point_invalid_atomic (i : ℤ) (movedPos dual ds : ℚ × ℚ)
    (s : ImgObjState) (h0 : i ≠ 0) (h1 : i ≠ 1) (h2 : i ≠ 2) (h3 : i ≠ 3) :
    setEditPoint i movedPos dual ds s =
      (s, some "No point corresponding to index") := by
  simp [setEditPoint, h0, h1, h2, h3]

/-- Concrete check of `set_edit_point_invalid_atomic` at index 7. -/
theorem set_edit_point_invalid_atomic_witness :
    setEditPoint 7 (0, 0) (1, 1) (1, 1) state0 =
      (state0, some "No point corresponding to index") :=
  set_edit_point_invalid_atomic 7 (0, 0) (1, 1) (1, 1) state0
    (by decide) (by decide) (by decide) (by decide)

/-- Claim C8: `set_edit_point(i, pt, detail)` fails for every index
outside {0, 1, 2, 3}; index 0 moves only the position, index 1 sets
only `scale_x`, index 2 only `scale_y`, index 3 both scales, and every
valid edit resets each viewer's optimize cache. -/
theorem set_edit_point_contract (i : ℤ) (movedPos dual ds : ℚ × ℚ)
    (s : ImgObjState) :
    ((i ≠ 0 ∧ i ≠ 1 ∧ i ≠ 2 ∧ i ≠ 3) →
        (setEditPoint i movedPos dual ds s).2.isSome) ∧
    (i = 0 →
        (setEditPoint i movedPos dual ds s).2 = none ∧
        (setEditPoint i movedPos dual ds s).1.x = movedPos.1 ∧
        (setEditPoint i movedPos dual ds s).1.y = movedPos.2 ∧
        (setEditPoint i movedPos dual ds s).1.scale_x = s.scale_x ∧
        (setEditPoint i movedPos dual ds s).1.scale_y = s.scale_y) ∧
    (i = 1 →
        (setEditPoint i movedPos dual ds s).2 = none ∧
        (setEditPoint i movedPos dual ds s).1.scale_x = ds.1 * dual.1 ∧
        (setEditPoint i movedPos dual ds s).1.scale_y = s.scale_y ∧
        (setEditPoint i movedPos dual ds s).1.x = s.x ∧
        (setEditPoint i movedPos dual ds s).1.y = s.y) ∧
    (i = 2 →
        (setEditPoint i movedPos dual ds s).2 = none ∧
        (setEditPoint i movedPos dual ds s).1.scale_y = ds.2 * dual.2 ∧
        (setEditPoint i movedPos dual ds s).1.scale_x = s.scale_x ∧
        (setEditPoint i movedPos dual ds s).1.x = s.x ∧
        (setEditPoint i movedPos dual ds s).1.y = s.y) ∧
    (i = 3 →
        (setEditPoint i movedPos dual ds s).2 = none ∧
        (setEditPoint i movedPos dual ds s).1.scale_x = ds.1 * dual.1 ∧
        (setEditPoint i movedPos dual ds s).1.scale_y = ds.2 * dual.2 ∧
        (setEditPoint i movedPos dual ds s).1.x = s.x ∧
        (setEditPoint i movedPos dual ds s).1.y = s.y) ∧
    ((i = 0 ∨ i = 1 ∨ i = 2 ∨ i = 3) →
        (setEditPoint i movedPos dual ds s).1.caches =
          s.caches.map (fun p => (p.1, resetCacheRaw p.2))) := by
  refine ⟨?_, ?_, ?_, ?_, ?_, ?_⟩
  · rintro ⟨h0, h1, h2, h3⟩
    simp [setEditPoint, h0, h1, h2, h3]
  · rintro rfl
    simp [setEditPoint, resetOptimizeRaw]
  · rintro rfl
    simp [setEditPoint, resetOptimizeRaw]
  · rintro rfl
    simp [setEditPoint, resetOptimizeRaw]
  · rintro rfl
    simp [setEditPoint, resetOptimizeRaw]
  · rintro (rfl | rfl | rfl | rfl) <;>
      simp [setEditPoint, resetOptimizeRaw]

/-- Concrete check of `set_edit_point_contract` at index 1. -/
theorem set_edit_point_contract_witness :
    ((setEditPoint 1 (0, 0) (5, 6) (2, 3) state0).2 = none ∧
     (setEditPoint 1 (0, 0) (5, 6) (2, 3) state0).1.scale_x = 2 * 5 ∧
     (setEditPoint 1 (0, 0) (5, 6) (2, 3) state0).1.scale_y = state0.scale_y ∧
     (setEditPoint 1 (0, 0) (5, 6) (2, 3) state0).1.x = state0.x ∧
     (setEditPoint 1 (0, 0) (5, 6) (2, 3) state0).1.y = state0.y) ∧
    (setEditPoint 1 (0, 0) (5, 6) (2, 3) state0).1.caches =
      state0.caches.map (fun p => (p.1, resetCacheRaw p.2)) := by
  have h := set_edit_point_contract 1 (0, 0) (5, 6) (2, 3) state0
  exact ⟨h.2.2.1 rfl, h.2.2.2.2.2 (Or.inr (Or.inl rfl))⟩

/-- Claim C7: `NormImageP.set_image` fires the `'image-set'` callback
exactly once, with the new image as its argument, stores the new image,
and resets the four cache fields (cutout, alpha, prergb, rgbarr) to
`None` in the entry of every viewer present in the cache dictionary
(the set of cached viewers itself is unchanged). -/
theorem set_image_contract (s : NormObjState) (img : Option RgbImage) :
    (setImageNorm s img).2 = [("image-set", img)] ∧
    (setImageNorm s img).1.image = img ∧
    (setImageNorm s img).1.caches.map Prod.fst = s.caches.map Prod.fst ∧
    ∀ p ∈ (setImageNorm s img).1.caches,
      p.2.cutout = none ∧ p.2.alpha = none ∧ p.2.prergb = none ∧
        p.2.rgbarr = none := by
  refine ⟨rfl, rfl, ?_, ?_⟩
  · simp [setImageNorm, resetOptimizeNorm]
  · intro p hp
    simp only [setImageNorm, resetOptimizeNorm, List.mem_map] at hp
    obtain ⟨q, _, rfl⟩ := hp
    simp [resetCacheNorm]

/-- Concrete check of `set_image_contract`: two cached viewers with
fully populated entries, image replaced by `img0`. -/
theorem set_image_contract_witness :
    (setImageNorm nstate0 (some img0)).2 = [("image-set", some img0)] ∧
    ((0, resetCacheNorm cacheFull).2.cutout = none ∧
     (0, resetCacheNorm cacheFull).2.alpha = none ∧
     (0, resetCacheNorm cacheFull).2.prergb = none ∧
     (0, resetCacheNorm cacheFull).2.rgbarr = none) := by
  have h := set_image_contract nstate0 (some img0)
  refine ⟨h.1, h.2.2.2 ((0 : ℕ), resetCacheNorm cacheFull) ?_⟩
  simp [setImageNorm, resetOptimizeNorm, nstate0]

/-- Claim C6 counterexample: with the explicit but unrecognized object
setting `"lanczos9"` and the valid viewer default `"bicubic"`, the code
falls back directly to `"basic"`; the claim's chain would have used the
viewer default `"bicubic"`. -/
theorem interp_choice_counterexample :
    chooseInterp tr0 objBadInterp viewerBicubic = "basic" ∧
    chooseInterpClaim tr0 objBadInterp viewerBicubic = "bicubic" ∧
    chooseInterp tr0 objBadInterp viewerBicubic ≠
      chooseInterpClaim tr0 objBadInterp viewerBicubic := by
  refine ⟨by decide, by decide, by decide⟩

/-- Claim C6 amended: the object's explicit interpolation setting is
used when set and recognized; when set but unrecognized the selection
falls back directly to `'basic'` (the viewer default is not consulted);
when unset, the viewer's default setting is used if recognized, else
`'basic'` (also when the viewer has no setting). The chosen method is
always a known method or `'basic'`, and selection is total: an invalid
name never raises. -/
theorem interp_choice_amended (tr : Trcalc) (obj : ImageObj) (v : Viewer) :
    (∀ s, obj.interpolation = some s → s ∈ tr.interpolationMethods →
        chooseInterp tr obj v = s) ∧
    (∀ s, obj.interpolation = some s → s ∉ tr.interpolationMethods →
        chooseInterp tr obj v = "basic") ∧
    (∀ d, obj.interpolation = none → v.settingsInterp = some d →
        d ∈ tr.interpolationMethods → chooseInterp tr obj v = d) ∧
    (∀ d, obj.interpolation = none → v.settingsInterp = some d →
        d ∉ tr.interpolationMethods → chooseInterp tr obj v = "basic") ∧
    (obj.interpolation = none → v.settingsInterp = none →
        chooseInterp tr obj v = "basic") ∧
    (chooseInterp tr obj v ∈ tr.interpolationMethods ∨
        chooseInterp tr obj v = "basic") := by
  refine ⟨?_, ?_, ?_, ?_, ?_, ?_⟩
  · intro s hs hmem
    simp [chooseInterp, hs, hmem]
  · intro s hs hmem
    simp [chooseInterp, hs, hmem]
  · intro d ho hv hmem
    simp [chooseInterp, ho, hv, hmem]
  · intro d ho hv hmem
    simp [chooseInterp, ho, hv, hmem]
  · intro ho hv
    by_cases hb : "basic" ∈ tr.interpolationMethods <;>
      simp [chooseInterp, ho, hv, hb]
  · unfold chooseInterp
    rcases obj.interpolation with _ | s
    · by_cases hb : v.settingsInterp.getD "basic" ∈ tr.interpolationMethods <;>
        simp [hb]
    · by_cases hb : s ∈ tr.interpolationMethods <;> simp [hb]

/-- Concrete check of `interp_choice_amended`: unset object setting,
valid viewer default `"bicubic"` gets chosen. -/
theorem interp_choice_amended_witness :
    chooseInterp tr0 obj0 viewerBicubic = "bicubic" := by
  have h := interp_choice_amended tr0 obj0 viewerBicubic
  exact h.2.2.1 "bicubic" rfl rfl (by decide)

/-- Every member of a list is at least its `minList`. -/
theorem minList_le (l : List ℚ) : ∀ x ∈ l, minList l ≤ x := by
  induction l with
  | nil => intro x hx; cases hx
  | cons a t ih =>
    intro x hx
    rcases List.mem_cons.mp hx with rfl | hx
    · cases t with
      | nil => simp [minList]
      | cons b t2 =>
        simp only [minList]
        exact min_le_left _ _
    · cases t with
      | nil => cases hx
      | cons b t2 =>
        simp only [minList]
        exact le_trans (min_le_right a (minList (b :: t2))) (ih x hx)

/-- Every member of a list is at most its `maxList`. -/
theorem le_maxList (l : List ℚ) : ∀ x ∈ l, x ≤ maxList l := by
  induction l with
  | nil => intro x hx; cases hx
  | cons a t ih =>
    intro x hx
    rcases List.mem_cons.mp hx with rfl | hx
    · cases t with
      | nil => simp [maxList]
      | cons b t2 =>
        simp only [maxList]
        exact le_max_left _ _
    · cases t with
      | nil => cases hx
      | cons b t2 =>
        simp only [maxList]
        exact le_trans (ih x hx) (le_max_right a (maxList (b :: t2)))

/-- Claim C5 counterexample: for the draw rectangle with corners
(-5/2, 0) and (1, 1) the minimum x coordinate is -5/2, whose floor is
-3, but the code computes `int(np.min(...)) = -2`: for a rectangle with
a negative fractional minimum the box is not rounded outward by floor. -/
theorem visible_box_floor_counterexample :
    minList ([((-5 : ℚ)/2, (0 : ℚ)), (1, 1)].map Prod.fst) = -5/2 ∧
    (visibleBox [((-5 : ℚ)/2, 0), (1, 1)]).1 = -2 ∧
    ⌊(-5 : ℚ)/2⌋ = -3 ∧
    (visibleBox [((-5 : ℚ)/2, 0), (1, 1)]).1 ≠
      ⌊minList ([((-5 : ℚ)/2, (0 : ℚ)), (1, 1)].map Prod.fst)⌋ := by
  have hmin : minList ([((-5 : ℚ)/2, (0 : ℚ)), (1, 1)].map Prod.fst) = -5/2 := by
    norm_num [minList]
  have h2 : (visibleBox [((-5 : ℚ)/2, 0), (1, 1)]).1 = -2 := by
    have hv : (visibleBox [((-5 : ℚ)/2, 0), (1, 1)]).1 =
        truncQ (minList ([((-5 : ℚ)/2, (0 : ℚ)), (1, 1)].map Prod.fst)) := rfl
    rw [hv, hmin]
    simp only [truncQ]
    rw [if_pos (show (-5 : ℚ)/2 < 0 by norm_num), Int.ceil_eq_iff]
    constructor <;> norm_num
  have h3 : ⌊(-5 : ℚ)/2⌋ = -3 := by norm_num
  refine ⟨hmin, h2, h3, ?_⟩
  rw [h2, hmin, h3]
  decide

/-- Claim C5 amended: in the cutout-extraction stage the maxima of the
draw rectangle are rounded outward to the ceiling (`xmax`, `ymax` bound
every corner and exceed the true maximum by less than one), but the
minima go through Python `int()`, which truncates toward zero: `xmin`
and `ymin` equal the floor of the minimum only when that minimum is
nonnegative; for a negative minimum they equal its ceiling (rounded
inward, not outward). -/
theorem visible_box_amended (p : ℚ × ℚ) (rest : List (ℚ × ℚ)) :
    (∀ q ∈ p :: rest,
      q.1 ≤ ((visibleBox (p :: rest)).2.2.1 : ℚ) ∧
      q.2 ≤ ((visibleBox (p :: rest)).2.2.2 : ℚ)) ∧
    ((visibleBox (p :: rest)).2.2.1 : ℚ) <
      maxList ((p :: rest).map Prod.fst) + 1 ∧
    ((visibleBox (p :: rest)).2.2.2 : ℚ) <
      maxList ((p :: rest).map Prod.snd) + 1 ∧
    (0 ≤ minList ((p :: rest).map Prod.fst) →
      (visibleBox (p :: rest)).1 = ⌊minList ((p :: rest).map Prod.fst)⌋) ∧
    (minList ((p :: rest).map Prod.fst) < 0 →
      (visibleBox (p :: rest)).1 = ⌈minList ((p :: rest).map Prod.fst)⌉) ∧
    (0 ≤ minList ((p :: rest).map Prod.snd) →
      (visibleBox (p :: rest)).2.1 = ⌊minList ((p :: rest).map Prod.snd)⌋) ∧
    (minList ((p :: rest).map Prod.snd) < 0 →
      (visibleBox (p :: rest)).2.1 = ⌈minList ((p :: rest).map Prod.snd)⌉) := by
  refine ⟨?_, ?_, ?_, ?_, ?_, ?_, ?_⟩
  · intro q hq
    constructor
    · calc q.1 ≤ maxList ((p :: rest).map Prod.fst) :=
            le_maxList _ q.1 (List.mem_map_of_mem Prod.fst hq)
        _ ≤ ((visibleBox (p :: rest)).2.2.1 : ℚ) := by
            simp only [visibleBox]; exact Int.le_ceil _
    · calc q.2 ≤ maxList ((p :: rest).map Prod.snd) :=
            le_maxList _ q.2 (List.mem_map_of_mem Prod.snd hq)
        _ ≤ ((visibleBox (p :: rest)).2.2.2 : ℚ) := by
            simp only [visibleBox]; exact Int.le_ceil _
  · simpa only [visibleBox] using
      Int.ceil_lt_add_one (maxList ((p :: rest).map Prod.fst))
  · simpa only [visibleBox] using
      Int.ceil_lt_add_one (maxList ((p :: rest).map Prod.snd))
  · intro h
    simp only [List.map_cons] at h
    simp [visibleBox, truncQ, not_lt.mpr h]
  · intro h
    simp only [List.map_cons] at h
    simp [visibleBox, truncQ, h]
  · intro h
    simp only [List.map_cons] at h
    simp [visibleBox, truncQ, not_lt.mpr h]
  · intro h
    simp only [List.map_cons] at h
    simp [visibleBox, truncQ, h]

/-- Concrete check of `visible_box_amended` on the counterexample
rectangle: the negative minimum is rounded inward to its ceiling. -/
theorem visible_box_amended_witness :
    (visibleBox (((-5 : ℚ)/2, (0 : ℚ)) :: [((1 : ℚ), (1 : ℚ))])).1 =
      ⌈minList ((((-5 : ℚ)/2, (0 : ℚ)) :: [((1 : ℚ), (1 : ℚ))]).map Prod.fst)⌉ := by
  have h := visible_box_amended ((-5 : ℚ)/2, (0 : ℚ)) [((1 : ℚ), (1 : ℚ))]
  exact h.2.2.2.2.1 (by norm_num [minList])

/-- `getD` of `List.set` at the written index. -/
theorem getD_set_self (l : List ℕ) (i a : ℕ) (h : i < l.length) :
    (l.set i a).getD i 0 = a := by
  induction l generalizing i with
  | nil => simp at h
  | cons x t ih =>
    cases i with
    | zero => rfl
    | succ n =>
      simp only [List.set_cons_succ, List.getD_cons_succ]
      exact ih n (by simpa using h)

/-- `getD` of `List.zipWith` at an in-bounds index. -/
theorem getD_zipWith {α β γ : Type} (f : α → β → γ) (l1 : List α)
    (l2 : List β) (i : ℕ) (h1 : i < l1.length) (h2 : i < l2.length)
    (d1 : α) (d2 : β) (d : γ) :
    (List.zipWith f l1 l2).getD i d = f (l1.getD i d1) (l2.getD i d2) := by
  induction l1 generalizing l2 i with
  | nil => simp at h1
  | cons x t ih =>
    cases l2 with
    | nil => simp at h2
    | cons y t2 =>
      cases i with
      | zero => rfl
      | succ n =>
        simp only [List.zipWith_cons_cons, List.getD_cons_succ]
        exact ih t2 n (by simpa using h1) (by simpa using h2)

/-- `getD` of `List.map` at an in-bounds index. -/
theorem getD_map {α β : Type} (f : α → β) (l : List α) (i : ℕ)
    (h : i < l.length) (d1 : α) (d : β) :
    (l.map f).getD i d = f (l.getD i d1) := by
  induction l generalizing i with
  | nil => simp at h
  | cons x t ih =>
    cases i with
    | zero => rfl
    | succ n =>
      simp only [List.map_cons, List.getD_cons_succ]
      exact ih n (by simpa using h)

/-- The stored alpha sample `s = ⌊v * maxc / mx⌋` brackets the exact
normalization value: `s * mx ≤ v * maxc < s * mx + mx`. -/
theorem splitAlphaVal_bounds (mx maxc v : ℕ) (hmx : 0 < mx) :
    splitAlphaVal mx maxc v * mx ≤ v * maxc ∧
    v * maxc < splitAlphaVal mx maxc v * mx + mx := by
  constructor
  · exact Nat.div_mul_le_self (v * maxc) mx
  · have hdm := Nat.div_add_mod (v * maxc) mx
    have hmod := Nat.mod_lt (v * maxc) hmx
    simp only [splitAlphaVal]
    calc v * maxc = mx * (v * maxc / mx) + v * maxc % mx := hdm.symm
      _ < mx * (v * maxc / mx) + mx := Nat.add_lt_add_left hmod _
      _ = v * maxc / mx * mx + mx := by rw [Nat.mul_comm]

/-- Rescaling the stored alpha sample back to the source range lands
within `mx / maxc` below the original sample. -/
theorem splitAlphaVal_roundtrip (mx maxc v : ℕ) (hmx : 0 < mx)
    (hmc : 0 < maxc) :
    ((splitAlphaVal mx maxc v : ℚ) * mx) / maxc ≤ (v : ℚ) ∧
    (v : ℚ) - (mx : ℚ) / maxc < ((splitAlphaVal mx maxc v : ℚ) * mx) / maxc := by
  obtain ⟨hlo, hhi⟩ := splitAlphaVal_bounds mx maxc v hmx
  have hmcq : (0 : ℚ) < (maxc : ℚ) := by exact_mod_cast hmc
  constructor
  · rw [div_le_iff₀ hmcq]
    exact_mod_cast hlo
  · rw [sub_lt_iff_lt_add, div_add_div_same, lt_div_iff₀ hmcq]
    exact_mod_cast hhi

/-- Claim C4: for a cutout whose channel order holds the alpha channel
at index `aIdx`, the split stores `⌊v * maxc / mx⌋` for each alpha
sample `v` (normalizing from the array dtype's maximum `mx` to the
color map's `maxc` scale with the truncating dtype cast), and writing
the stored plane back into channel `aDst` of a destination array
(`dst_order.index('A')`) puts exactly that stored value there; rescaled
back by `mx / maxc` it reproduces the original sample up to the
rounding tolerance `mx / maxc` of the normalization. -/
theorem alpha_roundtrip (mx maxc aIdx aDst i j : ℕ) (arr rgb : PixArr)
    (hmx : 0 < mx) (hmc : 0 < maxc)
    (hi : i < arr.length) (hir : i < rgb.length)
    (hj : j < (arr.getD i []).length) (hjr : j < (rgb.getD i []).length)
    (hch : aDst < ((rgb.getD i []).getD j []).length) :
    (((writeAlpha aDst (splitAlphaArr mx maxc aIdx arr) rgb).getD i []).getD j []).getD aDst 0
      = splitAlphaVal mx maxc (((arr.getD i []).getD j []).getD aIdx 0) ∧
    ((splitAlphaVal mx maxc (((arr.getD i []).getD j []).getD aIdx 0) : ℚ) * mx) / maxc
      ≤ ((((arr.getD i []).getD j []).getD aIdx 0 : ℕ) : ℚ) ∧
    ((((arr.getD i []).getD j []).getD aIdx 0 : ℕ) : ℚ) - (mx : ℚ) / maxc
      < ((splitAlphaVal mx maxc (((arr.getD i []).getD j []).getD aIdx 0) : ℚ) * mx) / maxc := by
  refine ⟨?_, (splitAlphaVal_roundtrip mx maxc _ hmx hmc).1,
    (splitAlphaVal_roundtrip mx maxc _ hmx hmc).2⟩
  have hlen : i < (splitAlphaArr mx maxc aIdx arr).length := by
    simpa [splitAlphaArr] using hi
  have e1 : (writeAlpha aDst (splitAlphaArr mx maxc aIdx arr) rgb).getD i [] =
      List.zipWith (fun p a => p.set aDst a) (rgb.getD i [])
        ((splitAlphaArr mx maxc aIdx arr).getD i []) :=
    getD_zipWith _ rgb _ i hir hlen [] [] []
  have e2 : (splitAlphaArr mx maxc aIdx arr).getD i [] =
      (arr.getD i []).map (fun p => splitAlphaVal mx maxc (p.getD aIdx 0)) :=
    getD_map _ arr i hi [] []
  have hj2 : j <
      ((arr.getD i []).map (fun p => splitAlphaVal mx maxc (p.getD aIdx 0))).length := by
    simpa using hj
  have e3 : (List.zipWith (fun p a => p.set aDst a) (rgb.getD i [])
        ((arr.getD i []).map (fun p => splitAlphaVal mx maxc (p.getD aIdx 0)))).getD j [] =
      ((rgb.getD i []).getD j []).set aDst
        (((arr.getD i []).map (fun p => splitAlphaVal mx maxc (p.getD aIdx 0))).getD j 0) :=
    getD_zipWith _ _ _ j hjr hj2 [] 0 []
  have e4 : ((arr.getD i []).map (fun p => splitAlphaVal mx maxc (p.getD aIdx 0))).getD j 0 =
      splitAlphaVal mx maxc (((arr.getD i []).getD j []).getD aIdx 0) :=
    getD_map _ _ j hj [] 0
  rw [e1, e2, e3, e4]
  exact getD_set_self _ aDst _ hch

/-- Concrete check of `alpha_roundtrip`: one RGBA pixel with alpha 100,
dtype maximum 255, mapper scale 255. -/
theorem alpha_roundtrip_witness :
    (((writeAlpha 3 (splitAlphaArr 255 255 3 [[[1, 2, 3, 100]]]) [[[7, 7, 7, 7]]]).getD 0 []).getD 0 []).getD 3 0
      = splitAlphaVal 255 255 ((([[[1, 2, 3, 100]]].getD 0 []).getD 0 []).getD 3 0) ∧
    ((splitAlphaVal 255 255 ((([[[1, 2, 3, 100]]].getD 0 []).getD 0 []).getD 3 0) : ℚ) * (255 : ℕ)) / (255 : ℕ)
      ≤ (((([[[1, 2, 3, 100]]].getD 0 []).getD 0 []).getD 3 0 : ℕ) : ℚ) ∧
    (((([[[1, 2, 3, 100]]].getD 0 []).getD 0 []).getD 3 0 : ℕ) : ℚ) - ((255 : ℕ) : ℚ) / (255 : ℕ)
      < ((splitAlphaVal 255 255 ((([[[1, 2, 3, 100]]].getD 0 []).getD 0 []).getD 3 0) : ℚ) * (255 : ℕ)) / (255 : ℕ) :=
  alpha_roundtrip 255 255 3 3 0 0 [[[1, 2, 3, 100]]] [[[7, 7, 7, 7]]]
    (by norm_num) (by norm_num) (by decide) (by decide) (by decide)
    (by decide) (by decide)

/-- Claim C2: when the clipped source region has non-positive extent in
either axis (`a2 - a1 <= 0` or `b2 - b1 <= 0`), a draw that executes
the extraction stage (whence ≤ 0, or no cutout cached, or optimize
disabled) records an absent cutout (`None`) in the cache and returns
without invoking the compositor overlay — for the raw and the
normalized variant alike; the draw is total, so this off-screen case is
a normal result, not an error. -/
theorem offscreen_cutout_absent (tr : Trcalc) (v : Viewer) (sh : ℕ × ℕ × ℕ)
    (objR : ImageObj) (objN : NormImageObj) (whence : ℚ) (cR cN : Cache)
    (imgR imgN : RgbImage)
    (hiR : objR.image = some imgR)
    (heR : (clipOf tr v objR imgR).2.2.1 - (clipOf tr v objR imgR).2.1.1 ≤ 0 ∨
           (clipOf tr v objR imgR).2.2.2 - (clipOf tr v objR imgR).2.1.2 ≤ 0)
    (hgR : whence ≤ 0 ∨ cR.cutout = none ∨ objR.optimize = false)
    (hiN : objN.toImageObj.image = some imgN)
    (heN : (clipOf tr v objN.toImageObj imgN).2.2.1 -
             (clipOf tr v objN.toImageObj imgN).2.1.1 ≤ 0 ∨
           (clipOf tr v objN.toImageObj imgN).2.2.2 -
             (clipOf tr v objN.toImageObj imgN).2.1.2 ≤ 0)
    (hgN : whence ≤ 0 ∨ cN.cutout = none ∨ objN.toImageObj.optimize = false) :
    (drawImageRaw tr v sh objR whence cR).1.cutout = none ∧
    (drawImageRaw tr v sh objR whence cR).2 = none ∧
    (drawImageNorm tr v sh objN whence cN).1.cutout = none ∧
    (drawImageNorm tr v sh objN whence cN).2 = none := by
  have hccR : computeCutout tr v objR imgR sh = none := by
    simp only [computeCutout]
    rw [if_pos heR]
  have hccN : computeCutout tr v objN.toImageObj imgN sh = none := by
    simp only [computeCutout]
    rw [if_pos heN]
  have hc1R : commonDraw tr v objR sh whence cR = { cR with cutout := none } := by
    simp [commonDraw, hiR, hgR, commonDrawCompute, hccR]
  have hc1N : commonDraw tr v objN.toImageObj sh whence cN =
      { cN with cutout := none } := by
    simp [commonDraw, hiN, hgN, commonDrawCompute, hccN]
  refine ⟨?_, ?_, ?_, ?_⟩
  · simp [drawImageRaw, hiR, hc1R]
  · simp [drawImageRaw, hiR, hc1R]
  · simp [drawImageNorm, hiN, hc1N]
  · simp [drawImageNorm, hiN, hc1N]

/-- Concrete check of `offscreen_cutout_absent`: a 1x1 image whose
full-image clip rectangle is degenerate, drawn at whence 0. -/
theorem offscreen_cutout_absent_witness :
    (drawImageRaw tr0 viewer0 (4, 4, 4) objOff 0 cache0).1.cutout = none ∧
    (drawImageRaw tr0 viewer0 (4, 4, 4) objOff 0 cache0).2 = none ∧
    (drawImageNorm tr0 viewer0 (4, 4, 4) nobjOff 0 cache0).1.cutout = none ∧
    (drawImageNorm tr0 viewer0 (4, 4, 4) nobjOff 0 cache0).2 = none :=
  offscreen_cutout_absent tr0 viewer0 (4, 4, 4) objOff nobjOff 0 cache0 cache0
    imgOff imgOff rfl (by decide) (Or.inl le_rfl) rfl (by decide)
    (Or.inl le_rfl)

/-- The `_common_draw` recompute never touches `alpha`. -/
@[simp] theorem commonDrawCompute_alpha (tr : Trcalc) (v : Viewer)
    (obj : ImageObj) (img : RgbImage) (sh : ℕ × ℕ × ℕ) (c : Cache) :
    (commonDrawCompute tr v obj img sh c).alpha = c.alpha := by
  unfold commonDrawCompute
  cases computeCutout tr v obj img sh <;> rfl

/-- The `_common_draw` recompute never touches `prergb`. -/
@[simp] theorem commonDrawCompute_prergb (tr : Trcalc) (v : Viewer)
    (obj : ImageObj) (img : RgbImage) (sh : ℕ × ℕ × ℕ) (c : Cache) :
    (commonDrawCompute tr v obj img sh c).prergb = c.prergb := by
  unfold commonDrawCompute
  cases computeCutout tr v obj img sh <;> rfl

/-- The `_common_draw` recompute never touches `rgbarr`. -/
@[simp] theorem commonDrawCompute_rgbarr (tr : Trcalc) (v : Viewer)
    (obj : ImageObj) (img : RgbImage) (sh : ℕ × ℕ × ℕ) (c : Cache) :
    (commonDrawCompute tr v obj img sh c).rgbarr = c.rgbarr := by
  unfold commonDrawCompute
  cases computeCutout tr v obj img sh <;> rfl

/-- The `_common_draw` recompute never touches `drawn`. -/
@[simp] theorem commonDrawCompute_drawn (tr : Trcalc) (v : Viewer)
    (obj : ImageObj) (img : RgbImage) (sh : ℕ × ℕ × ℕ) (c : Cache) :
    (commonDrawCompute tr v obj img sh c).drawn = c.drawn := by
  unfold commonDrawCompute
  cases computeCutout tr v obj img sh <;> rfl

/-- The recomputed cutout is the environment-determined value. -/
theorem commonDrawCompute_cutout (tr : Trcalc) (v : Viewer) (obj : ImageObj)
    (img : RgbImage) (sh : ℕ × ℕ × ℕ) (c : Cache) :
    (commonDrawCompute tr v obj img sh c).cutout =
      Option.map Prod.fst (computeCutout tr v obj img sh) := by
  unfold commonDrawCompute
  cases computeCutout tr v obj img sh <;> rfl

/-- Rerunning the `_common_draw` recompute changes nothing further. -/
theorem commonDrawCompute_idem (tr : Trcalc) (v : Viewer) (obj : ImageObj)
    (img : RgbImage) (sh : ℕ × ℕ × ℕ) (c : Cache) :
    commonDrawCompute tr v obj img sh (commonDrawCompute tr v obj img sh c) =
      commonDrawCompute tr v obj img sh c := by
  unfold commonDrawCompute
  cases computeCutout tr v obj img sh <;> rfl

/-- `_common_draw` never touches `alpha`. -/
@[simp] theorem commonDraw_alpha (tr : Trcalc) (v : Viewer) (obj : ImageObj)
    (sh : ℕ × ℕ × ℕ) (w : ℚ) (c : Cache) :
    (commonDraw tr v obj sh w c).alpha = c.alpha := by
  unfold commonDraw
  cases obj.image with
  | none => rfl
  | some img =>
    by_cases hg : w ≤ 0 ∨ c.cutout = none ∨ obj.optimize = false <;> simp [hg]

/-- `_common_draw` never touches `prergb`. -/
@[simp] theorem commonDraw_prergb (tr : Trcalc) (v : Viewer) (obj : ImageObj)
    (sh : ℕ × ℕ × ℕ) (w : ℚ) (c : Cache) :
    (commonDraw tr v obj sh w c).prergb = c.prergb := by
  unfold commonDraw
  cases obj.image with
  | none => rfl
  | some img =>
    by_cases hg : w ≤ 0 ∨ c.cutout = none ∨ obj.optimize = false <;> simp [hg]

/-- `_common_draw` never touches `rgbarr`. -/
@[simp] theorem commonDraw_rgbarr (tr : Trcalc) (v : Viewer) (obj : ImageObj)
    (sh : ℕ × ℕ × ℕ) (w : ℚ) (c : Cache) :
    (commonDraw tr v obj sh w c).rgbarr = c.rgbarr := by
  unfold commonDraw
  cases obj.image with
  | none => rfl
  | some img =>
    by_cases hg : w ≤ 0 ∨ c.cutout = none ∨ obj.optimize = false <;> simp [hg]

/-- `_common_draw` never touches `drawn`. -/
@[simp] theorem commonDraw_drawn (tr : Trcalc) (v : Viewer) (obj : ImageObj)
    (sh : ℕ × ℕ × ℕ) (w : ℚ) (c : Cache) :
    (commonDraw tr v obj sh w c).drawn = c.drawn := by
  unfold commonDraw
  cases obj.image with
  | none => rfl
  | some img =>
    by_cases hg : w ≤ 0 ∨ c.cutout = none ∨ obj.optimize = false <;> simp [hg]

/-- Rerunning `_common_draw` on its own output changes nothing. -/
theorem commonDraw_idem (tr : Trcalc) (v : Viewer) (obj : ImageObj)
    (sh : ℕ × ℕ × ℕ) (w : ℚ) (c : Cache) :
    commonDraw tr v obj sh w (commonDraw tr v obj sh w c) =
      commonDraw tr v obj sh w c := by
  unfold commonDraw
  cases himg : obj.image with
  | none => rfl
  | some img =>
    dsimp only
    by_cases hg : w ≤ 0 ∨ c.cutout = none ∨ obj.optimize = false
    · rw [if_pos hg]
      by_cases hg2 : w ≤ 0 ∨
          (commonDrawCompute tr v obj img sh c).cutout = none ∨
          obj.optimize = false
      · rw [if_pos hg2, commonDrawCompute_idem]
      · rw [if_neg hg2]
    · rw [if_neg hg, if_neg hg]

/-- The alpha-split step never touches `prergb`. -/
@[simp] theorem alphaSplitStage_prergb (io : List Char) (mx mc : ℕ)
    (c : Cache) : (alphaSplitStage io mx mc c).prergb = c.prergb := by
  unfold alphaSplitStage
  cases c.cutout with
  | none => rfl
  | some cut => by_cases h : 'A' ∈ io <;> simp [h]

/-- The alpha-split step never touches `rgbarr`. -/
@[simp] theorem alphaSplitStage_rgbarr (io : List Char) (mx mc : ℕ)
    (c : Cache) : (alphaSplitStage io mx mc c).rgbarr = c.rgbarr := by
  unfold alphaSplitStage
  cases c.cutout with
  | none => rfl
  | some cut => by_cases h : 'A' ∈ io <;> simp [h]

/-- The alpha-split step never touches `drawn`. -/
@[simp] theorem alphaSplitStage_drawn (io : List Char) (mx mc : ℕ)
    (c : Cache) : (alphaSplitStage io mx mc c).drawn = c.drawn := by
  unfold alphaSplitStage
  cases c.cutout with
  | none => rfl
  | some cut => by_cases h : 'A' ∈ io <;> simp [h]

/-- The alpha-split step never touches `cvs_pos`. -/
@[simp] theorem alphaSplitStage_cvs (io : List Char) (mx mc : ℕ)
    (c : Cache) : (alphaSplitStage io mx mc c).cvs_pos = c.cvs_pos := by
  unfold alphaSplitStage
  cases c.cutout with
  | none => rfl
  | some cut => by_cases h : 'A' ∈ io <;> simp [h]

/-- Explicit form of the alpha-split step on a present cutout. -/
theorem alphaSplitStage_eq_of_some (io : List Char) (mx mc : ℕ) (cut : PixArr)
    (c : Cache) (hc : c.cutout = some cut) :
    alphaSplitStage io mx mc c =
      if 'A' ∈ io then
        { c with alpha := some (splitAlphaArr mx mc (io.indexOf 'A') cut),
                 cutout := some (stripAlpha (io.indexOf 'A') cut) }
      else { c with alpha := none } := by
  unfold alphaSplitStage
  rw [hc]

/-- The index-array step only writes `prergb`. -/
@[simp] theorem prergbStage_cutout (v : Viewer) (obj : NormImageObj)
    (rm : RgbMapper) (c : Cache) :
    (prergbStage v obj rm c).cutout = c.cutout := rfl

/-- The index-array step never touches `alpha`. -/
@[simp] theorem prergbStage_alpha (v : Viewer) (obj : NormImageObj)
    (rm : RgbMapper) (c : Cache) :
    (prergbStage v obj rm c).alpha = c.alpha := rfl

/-- The index-array step never touches `rgbarr`. -/
@[simp] theorem prergbStage_rgbarr (v : Viewer) (obj : NormImageObj)
    (rm : RgbMapper) (c : Cache) :
    (prergbStage v obj rm c).rgbarr = c.rgbarr := rfl

/-- The index-array step never touches `drawn`. -/
@[simp] theorem prergbStage_drawn (v : Viewer) (obj : NormImageObj)
    (rm : RgbMapper) (c : Cache) :
    (prergbStage v obj rm c).drawn = c.drawn := rfl

/-- The index-array step never touches `cvs_pos`. -/
@[simp] theorem prergbStage_cvs (v : Viewer) (obj : NormImageObj)
    (rm : RgbMapper) (c : Cache) :
    (prergbStage v obj rm c).cvs_pos = c.cvs_pos := rfl

/-- The value written by the index-array step. -/
theorem prergbStage_prergb (v : Viewer) (obj : NormImageObj)
    (rm : RgbMapper) (c : Cache) :
    (prergbStage v obj rm c).prergb =
      some (applyVisuals v obj (c.cutout.getD []) 0 (rm.hashSize - 1)) := rfl

/-- The color-map step only writes `rgbarr`. -/
@[simp] theorem rgbarrStage_cutout (o1 o2 : List Char) (rm : RgbMapper)
    (c : Cache) : (rgbarrStage o1 o2 rm c).cutout = c.cutout := rfl

/-- The color-map step never touches `alpha`. -/
@[simp] theorem rgbarrStage_alpha (o1 o2 : List Char) (rm : RgbMapper)
    (c : Cache) : (rgbarrStage o1 o2 rm c).alpha = c.alpha := rfl

/-- The color-map step never touches `prergb`. -/
@[simp] theorem rgbarrStage_prergb (o1 o2 : List Char) (rm : RgbMapper)
    (c : Cache) : (rgbarrStage o1 o2 rm c).prergb = c.prergb := rfl

/-- The color-map step never touches `drawn`. -/
@[simp] theorem rgbarrStage_drawn (o1 o2 : List Char) (rm : RgbMapper)
    (c : Cache) : (rgbarrStage o1 o2 rm c).drawn = c.drawn := rfl

/-- The color-map step never touches `cvs_pos`. -/
@[simp] theorem rgbarrStage_cvs (o1 o2 : List Char) (rm : RgbMapper)
    (c : Cache) : (rgbarrStage o1 o2 rm c).cvs_pos = c.cvs_pos := rfl

/-- The value written by the color-map step. -/
theorem rgbarrStage_rgbarr (o1 o2 : List Char) (rm : RgbMapper) (c : Cache) :
    (rgbarrStage o1 o2 rm c).rgbarr =
      some (rgbarrVal o1 o2 rm (c.prergb.getD []) c.alpha) := rfl

/-- With caching enabled and whence past every stage, the staged updates
leave a cache with present index and color-mapped arrays unchanged. -/
theorem normStages_fix (v : Viewer) (obj : NormImageObj) (img : RgbImage)
    (w : ℚ) (c : Cache) (hw : 2 < w)
    (hopt : obj.toImageObj.optimize = true)
    (hpre : c.prergb ≠ none) (hrgb : c.rgbarr ≠ none) :
    normStages v obj img w c = c := by
  have h0 : ¬ w ≤ 0 := by linarith
  have h1 : ¬ w ≤ 1 := by linarith
  have h2 : ¬ w ≤ 2 := not_le.mpr hw
  have g1 : ¬ (w ≤ 0 ∨ obj.toImageObj.optimize = false) := by
    rintro (h | h)
    · exact h0 h
    · rw [hopt] at h; cases h
  have g2 : ¬ (w ≤ 1 ∨ c.prergb = none ∨ obj.toImageObj.optimize = false) := by
    rintro (h | h | h)
    · exact h1 h
    · exact hpre h
    · rw [hopt] at h; cases h
  have g3 : ¬ (w ≤ 2 ∨ c.rgbarr = none ∨ obj.toImageObj.optimize = false) := by
    rintro (h | h | h)
    · exact h2 h
    · exact hrgb h
    · rw [hopt] at h; cases h
  simp only [normStages]
  rw [if_neg g1, if_neg g2, if_neg g3]

/-- After the staged updates, the index array and the color-mapped array
are always present. -/
theorem normStages_post (v : Viewer) (obj : NormImageObj) (img : RgbImage)
    (w : ℚ) (c : Cache) :
    (normStages v obj img w c).prergb ≠ none ∧
    (normStages v obj img w c).rgbarr ≠ none := by
  refine ⟨?_, ?_⟩ <;>
    (simp only [normStages]
     split_ifs <;> simp_all [prergbStage_prergb, rgbarrStage_rgbarr])

/-- With caching enabled and whence past the cutout stage, the staged
updates leave the cutout unchanged. -/
theorem normStages_cutout_opt (v : Viewer) (obj : NormImageObj)
    (img : RgbImage) (w : ℚ) (c : Cache) (h0 : ¬ w ≤ 0)
    (hopt : obj.toImageObj.optimize = true) :
    (normStages v obj img w c).cutout = c.cutout := by
  have g1 : ¬ (w ≤ 0 ∨ obj.toImageObj.optimize = false) := by
    rintro (h | h)
    · exact h0 h
    · rw [hopt] at h; cases h
  simp only [normStages]
  rw [if_neg g1]
  split_ifs <;> simp

/-- The staged updates never touch `drawn` or `cvs_pos`. -/
theorem normStages_drawn_cvs (v : Viewer) (obj : NormImageObj)
    (img : RgbImage) (w : ℚ) (c : Cache) :
    (normStages v obj img w c).drawn = c.drawn ∧
    (normStages v obj img w c).cvs_pos = c.cvs_pos := by
  refine ⟨?_, ?_⟩ <;> (simp only [normStages]; split_ifs <;> simp)

/-- With caching disabled every stage recomputes, so the staged updates
depend only on the current cutout (carrying `drawn` and `cvs_pos`). -/
theorem normStages_noopt (v : Viewer) (obj : NormImageObj) (img : RgbImage)
    (w : ℚ) (cut : PixArr) (c c' : Cache)
    (hopt : obj.toImageObj.optimize = false)
    (hc : c.cutout = some cut) (hc' : c'.cutout = some cut)
    (hd : c.drawn = c'.drawn) (hv : c.cvs_pos = c'.cvs_pos) :
    normStages v obj img w c = normStages v obj img w c' := by
  simp only [normStages, hopt, eq_self_iff_true, or_true, if_true]
  rw [alphaSplitStage_eq_of_some img.order img.dtypeMax
        (obj.rgbmapOv.getD v.rgbmap).maxc cut c hc,
      alphaSplitStage_eq_of_some img.order img.dtypeMax
        (obj.rgbmapOv.getD v.rgbmap).maxc cut c' hc']
  by_cases hA : 'A' ∈ img.order
  · rw [if_pos hA, if_pos hA]
    ext <;> simp [prergbStage, rgbarrStage, applyVisuals, hd, hv, hc, hc']
  · rw [if_neg hA, if_neg hA]
    ext <;> simp [prergbStage, rgbarrStage, applyVisuals, hd, hv, hc, hc']

/-- With caching enabled and whence past the cutout stage, the staged
updates leave the separated alpha unchanged. -/
theorem normStages_alpha_opt (v : Viewer) (obj : NormImageObj)
    (img : RgbImage) (w : ℚ) (c : Cache) (h0 : ¬ w ≤ 0)
    (hopt : obj.toImageObj.optimize = true) :
    (normStages v obj img w c).alpha = c.alpha := by
  have g1 : ¬ (w ≤ 0 ∨ obj.toImageObj.optimize = false) := by
    rintro (h | h)
    · exact h0 h
    · rw [hopt] at h; cases h
  simp only [normStages]
  rw [if_neg g1]
  split_ifs <;> simp

/-- Claim C3: on a normalized draw with whence 1, optimize enabled and a
cached cutout present, the alpha-separation step is skipped — the
previously split alpha stays in the cache and, when present, is the
plane written back into the recombined output — while the index array
(prergb) is recomputed from the cached cutout; and in general the alpha
split never re-executes while whence > 0 and optimize is enabled (it
re-runs only at whence ≤ 0 or with optimize disabled). -/
theorem whence1_alpha_reuse (tr : Trcalc) (v : Viewer) (sh : ℕ × ℕ × ℕ)
    (obj : NormImageObj) (c0 : Cache) (img : RgbImage) (cut : PixArr)
    (hi : obj.toImageObj.image = some img)
    (hopt : obj.toImageObj.optimize = true)
    (hcut : c0.cutout = some cut) :
    (drawImageNorm tr v sh obj 1 c0).1.alpha = c0.alpha ∧
    (drawImageNorm tr v sh obj 1 c0).1.cutout = some cut ∧
    (drawImageNorm tr v sh obj 1 c0).1.prergb =
      some (applyVisuals v obj cut 0
        ((obj.rgbmapOv.getD v.rgbmap).hashSize - 1)) ∧
    (∀ al, c0.alpha = some al → 'A' ∈ v.rgbOrder →
      (drawImageNorm tr v sh obj 1 c0).1.rgbarr =
        some (writeAlpha (v.rgbOrder.indexOf 'A') al
          ((obj.rgbmapOv.getD v.rgbmap).getRgbArray
            (applyVisuals v obj cut 0
              ((obj.rgbmapOv.getD v.rgbmap).hashSize - 1))
            v.rgbOrder img.order))) ∧
    (∀ (w : ℚ) (c : Cache), 0 < w →
      (drawImageNorm tr v sh obj w c).1.alpha = c.alpha) := by
  have hne : ¬ ((1 : ℚ) ≤ 0 ∨ c0.cutout = none ∨
      obj.toImageObj.optimize = false) := by
    rintro (h | h | h)
    · norm_num at h
    · rw [hcut] at h; cases h
    · rw [hopt] at h; cases h
  have hc1 : commonDraw tr v obj.toImageObj sh 1 c0 = c0 := by
    unfold commonDraw
    rw [hi]
    dsimp only
    rw [if_neg hne]
  have hcutne : ¬ (c0.cutout = none) := by
    rw [hcut]
    exact fun h => Option.noConfusion h
  have hD : drawImageNorm tr v sh obj 1 c0 =
      (normStages v obj img 1 c0,
        some ((normStages v obj img 1 c0).rgbarr.getD [],
              (normStages v obj img 1 c0).cvs_pos)) := by
    unfold drawImageNorm
    rw [hi]
    dsimp only
    rw [hc1, if_neg hcutne]
  have hg1 : ¬ ((1 : ℚ) ≤ 0 ∨ obj.toImageObj.optimize = false) := by
    rintro (h | h)
    · norm_num at h
    · rw [hopt] at h; cases h
  have hNS : normStages v obj img 1 c0 =
      rgbarrStage v.rgbOrder img.order (obj.rgbmapOv.getD v.rgbmap)
        (prergbStage v obj (obj.rgbmapOv.getD v.rgbmap) c0) := by
    simp only [normStages]
    rw [if_neg hg1, if_pos (Or.inl (by norm_num : (1 : ℚ) ≤ 1)),
        if_pos (Or.inl (by norm_num : (1 : ℚ) ≤ 2))]
  refine ⟨?_, ?_, ?_, ?_, ?_⟩
  · rw [hD]
    dsimp only
    rw [hNS]
    simp
  · rw [hD]
    dsimp only
    rw [hNS]
    simp [hcut]
  · rw [hD]
    dsimp only
    rw [hNS]
    simp only [rgbarrStage_prergb, prergbStage_prergb, hcut, Option.getD_some]
  · intro al hal hA
    rw [hD]
    dsimp only
    rw [hNS]
    simp only [rgbarrStage_rgbarr, prergbStage_prergb, prergbStage_alpha,
      hcut, hal, Option.getD_some, rgbarrVal]
    rw [if_pos hA]
  · intro w c hw
    have hwne : ¬ w ≤ 0 := not_le.mpr hw
    unfold drawImageNorm
    cases him : obj.toImageObj.image with
    | none => rfl
    | some img2 =>
      dsimp only
      by_cases hcn : (commonDraw tr v obj.toImageObj sh w c).cutout = none
      · rw [if_pos hcn]
        simp
      · rw [if_neg hcn]
        dsimp only
        rw [normStages_alpha_opt v obj img2 w _ hwne hopt, commonDraw_alpha]

/-- Concrete check of `whence1_alpha_reuse`: fully cached entry, draw at
whence 1 with the sample normalized object. -/
theorem whence1_alpha_reuse_witness :
    (drawImageNorm tr0 viewer0 (4, 4, 4) nobj0 1 cacheFull).1.alpha =
      cacheFull.alpha ∧
    (drawImageNorm tr0 viewer0 (4, 4, 4) nobj0 1 cacheFull).1.prergb =
      some (applyVisuals viewer0 nobj0 [[[1, 2, 3, 4]]] 0
        ((nobj0.rgbmapOv.getD viewer0.rgbmap).hashSize - 1)) := by
  have h := whence1_alpha_reuse tr0 viewer0 (4, 4, 4) nobj0 cacheFull img0
    [[[1, 2, 3, 4]]] rfl rfl rfl
  exact ⟨h.1, h.2.2.1⟩

/-- The canvas position after a recompute is the environment-determined
value when on screen and the previous one when off screen. -/
theorem commonDrawCompute_cvs (tr : Trcalc) (v : Viewer) (obj : ImageObj)
    (img : RgbImage) (sh : ℕ × ℕ × ℕ) (c : Cache) :
    (commonDrawCompute tr v obj img sh c).cvs_pos =
      ((computeCutout tr v obj img sh).map Prod.snd).getD c.cvs_pos := by
  unfold commonDrawCompute
  cases computeCutout tr v obj img sh <;> rfl

/-- Claim C1: with whence > 2 and no parameter mutation or cache
invalidation between the calls, a second `draw_image` leaves every
cache-entry field (cutout, alpha, prergb, rgbarr, drawn, cvs_pos)
exactly as the first call left it and hands the identical source pixel
array at the identical destination offset to the compositor — for the
raw and the normalized variant alike (the returned pair is the new
cache entry together with the compositor arguments). -/
theorem draw_image_idempotent (tr : Trcalc) (v : Viewer) (sh : ℕ × ℕ × ℕ)
    (objR : ImageObj) (objN : NormImageObj) (whence : ℚ) (cR cN : Cache)
    (hw : 2 < whence) :
    drawImageRaw tr v sh objR whence (drawImageRaw tr v sh objR whence cR).1 =
      drawImageRaw tr v sh objR whence cR ∧
    drawImageNorm tr v sh objN whence (drawImageNorm tr v sh objN whence cN).1 =
      drawImageNorm tr v sh objN whence cN := by
  constructor
  · unfold drawImageRaw
    cases himg : objR.image with
    | none => rfl
    | some img =>
      dsimp only
      by_cases hcn : (commonDraw tr v objR sh whence cR).cutout = none
      · rw [if_pos hcn]
        dsimp only
        rw [commonDraw_idem, if_pos hcn]
      · rw [if_neg hcn]
        dsimp only
        rw [commonDraw_idem, if_neg hcn]
  · unfold drawImageNorm
    cases himg : objN.toImageObj.image with
    | none => rfl
    | some img =>
      dsimp only
      by_cases hcn : (commonDraw tr v objN.toImageObj sh whence cN).cutout = none
      · rw [if_pos hcn]
        dsimp only
        rw [commonDraw_idem, if_pos hcn]
      · rw [if_neg hcn]
        dsimp only
        by_cases hopt : objN.toImageObj.optimize = true
        · set c1 := commonDraw tr v objN.toImageObj sh whence cN with hc1def
          set c4 := normStages v objN img whence c1 with hc4def
          have hc4cut : c4.cutout = c1.cutout :=
            normStages_cutout_opt v objN img whence c1 (by linarith) hopt
          have hc4cutne : ¬ (c4.cutout = none) := by rw [hc4cut]; exact hcn
          have hg4 : ¬ (whence ≤ 0 ∨ c4.cutout = none ∨
              objN.toImageObj.optimize = false) := by
            rintro (h | h | h)
            · linarith
            · exact hc4cutne h
            · rw [hopt] at h; cases h
          have hcd2 : commonDraw tr v objN.toImageObj sh whence c4 = c4 := by
            unfold commonDraw
            rw [himg]
            dsimp only
            rw [if_neg hg4]
          rw [hcd2, if_neg hc4cutne]
          have hfix : normStages v objN img whence c4 = c4 := by
            apply normStages_fix v objN img whence c4 hw hopt
            · exact (normStages_post v objN img whence c1).1
            · exact (normStages_post v objN img whence c1).2
          rw [hfix]
        · have hoptF : objN.toImageObj.optimize = false := by
            cases hb : objN.toImageObj.optimize
            · rfl
            · exact absurd hb hopt
          have hcd : ∀ c : Cache, commonDraw tr v objN.toImageObj sh whence c =
              commonDrawCompute tr v objN.toImageObj img sh c := by
            intro c
            unfold commonDraw
            rw [himg]
            dsimp only
            rw [if_pos (Or.inr (Or.inr hoptF))]
          cases hk : computeCutout tr v objN.toImageObj img sh with
          | none =>
            exfalso
            apply hcn
            rw [hcd cN, commonDrawCompute_cutout, hk]
            rfl
          | some dp =>
            have hcut1 : ∀ c : Cache,
                (commonDraw tr v objN.toImageObj sh whence c).cutout =
                  some dp.1 := by
              intro c
              rw [hcd c, commonDrawCompute_cutout, hk]
              rfl
            have hcvs1 : ∀ c : Cache,
                (commonDraw tr v objN.toImageObj sh whence c).cvs_pos =
                  dp.2 := by
              intro c
              rw [hcd c, commonDrawCompute_cvs, hk]
              rfl
            set c1 := commonDraw tr v objN.toImageObj sh whence cN with hc1def
            set c4 := normStages v objN img whence c1 with hc4def
            have hne4 : ¬ ((commonDraw tr v objN.toImageObj sh whence c4).cutout
                = none) := by
              rw [hcut1 c4]
              exact fun h => Option.noConfusion h
            rw [if_neg hne4]
            have hdrawn : (commonDraw tr v objN.toImageObj sh whence c4).drawn
                = c1.drawn := by
              rw [commonDraw_drawn]
              rw [hc4def]
              exact (normStages_drawn_cvs v objN img whence c1).1
            have hcvs : (commonDraw tr v objN.toImageObj sh whence c4).cvs_pos
                = c1.cvs_pos := by
              rw [hcvs1 c4, hc1def, hcvs1 cN]
            have hstage : normStages v objN img whence
                (commonDraw tr v objN.toImageObj sh whence c4) =
                normStages v objN img whence c1 :=
              normStages_noopt v objN img whence dp.1 _ c1 hoptF
                (hcut1 c4) (by rw [hc1def]; exact hcut1 cN) hdrawn hcvs
            rw [hstage, ← hc4def]

/-- Concrete check of `draw_image_idempotent`: both variants drawn twice
at whence 3 starting from an empty cache entry. -/
theorem draw_image_idempotent_witness :
    drawImageRaw tr0 viewer0 (4, 4, 4) obj0 3
        (drawImageRaw tr0 viewer0 (4, 4, 4) obj0 3 cache0).1 =
      drawImageRaw tr0 viewer0 (4, 4, 4) obj0 3 cache0 ∧
    drawImageNorm tr0 viewer0 (4, 4, 4) nobj0 3
        (drawImageNorm tr0 viewer0 (4, 4, 4) nobj0 3 cache0).1 =
      drawImageNorm tr0 viewer0 (4, 4, 4) nobj0 3 cache0 :=
  draw_image_idempotent tr0 viewer0 (4, 4, 4) obj0 nobj0 3 cache0 cache0
    (by norm_num)
